import Mathlib

/-!
Verification development for the direction-detectives session engine.

The definitions below are a shallow embedding of the engine implemented in
src/App.tsx together with its shared vocabulary (src/types.ts) and static
configuration (GRID_SIZE, TURN_ANGLE, LEVEL_CONFIGS).  JavaScript numbers are
modelled as real numbers; trigonometry uses the exact real sin and cos.  The
asynchronous pieces of the engine (the setTimeout that fires SUCCESS or the
next step's narration) are modelled with an explicit `pending` slot in the
session state that a separate `tick` transition consumes, so the pacing window
between the last accepted command of a step and the scheduled transition is a
first-class state.  A config lookup written with a non-null assertion in the
source is modelled as an `Option`, `none` standing for the runtime TypeError
the assertion would hide.
-/

namespace DirectionDetectives

/-- Direction vocabulary from src/types.ts: the closed set of commands. -/
inductive Direction where
  | STRAIGHT
  | LEFT
  | RIGHT
deriving DecidableEq, Repr

/-- Game status vocabulary from src/types.ts. -/
inductive GameStatus where
  | START
  | LISTENING
  | MOVING
  | SUCCESS
  | FAIL
deriving DecidableEq, Repr

/-- One entry of the level catalog (constants file). -/
structure LevelConfig where
  id : Nat
  commandCountPerStep : Nat
  totalSteps : Nat
deriving DecidableEq, Repr

/-- The static level catalog LEVEL_CONFIGS from the constants file. -/
def LEVEL_CONFIGS : List LevelConfig :=
  [⟨1, 1, 8⟩, ⟨2, 2, 10⟩, ⟨3, 3, 12⟩]

/-- GRID_SIZE = 5 from the constants file. -/
def GRID_SIZE : ℝ := 5

/-- TURN_ANGLE = 90 from the constants file. -/
def TURN_ANGLE : ℝ := 90

/-- Player pose (Position in src/types.ts): x, z and rotation in degrees. -/
structure Pose where
  x : ℝ
  z : ℝ
  rotation : ℝ

/-- The pose update performed by executeMove's accept branch
(src/App.tsx lines 158-165). -/
noncomputable def applyMove (prev : Pose) (inputDir : Direction) : Pose :=
  match inputDir with
  | .STRAIGHT =>
      let rad := prev.rotation * Real.pi / 180
      { prev with
          x := prev.x - Real.sin rad * GRID_SIZE
          z := prev.z - Real.cos rad * GRID_SIZE }
  | .LEFT => { prev with rotation := prev.rotation + TURN_ANGLE }
  | .RIGHT => { prev with rotation := prev.rotation - TURN_ANGLE }

/-- Simulation state used while generating a level (simX, simZ, simRot in
generateLevel, src/App.tsx lines 103). -/
structure SimState where
  simX : ℝ
  simZ : ℝ
  simRot : ℝ

/-- One iteration of the simulation loop in generateLevel
(src/App.tsx lines 110-115). -/
noncomputable def simApply (st : SimState) (move : Direction) : SimState :=
  match move with
  | .STRAIGHT =>
      let rad := st.simRot * Real.pi / 180
      { st with
          simX := st.simX - Real.sin rad * GRID_SIZE
          simZ := st.simZ - Real.cos rad * GRID_SIZE }
  | .LEFT => { st with simRot := st.simRot + TURN_ANGLE }
  | .RIGHT => { st with simRot := st.simRot - TURN_ANGLE }

/-- Running the generation-time simulation over a whole path from the origin
pose (simX = simZ = simRot = 0). -/
noncomputable def simulatePath (path : List Direction) : SimState :=
  path.foldl simApply ⟨0, 0, 0⟩

/-- The four-element draw array in generateLevel (line 107): STRAIGHT occupies
two of the four equally likely slots. -/
def possibleMoves : List Direction :=
  [.STRAIGHT, .STRAIGHT, .LEFT, .RIGHT]

/-- One random draw: the source picks possible[Math.floor(Math.random()*4)];
the random source is modelled as a stream of values in Fin 4. -/
def drawMove (rng : Nat → Fin 4) (i : Nat) : Direction :=
  possibleMoves.get (rng i)

/-- The path built by generateLevel's loop (lines 106-116): one draw per
iteration, totalSteps * commandCountPerStep iterations. -/
def generatePath (config : LevelConfig) (rng : Nat → Fin 4) : List Direction :=
  (List.range (config.totalSteps * config.commandCountPerStep)).map (drawMove rng)

/-- The catalog lookup LEVEL_CONFIGS.find(c => c.id === lvl), shared by
generateLevel, startStep and executeMove. -/
def findConfig (lvl : Nat) : Option LevelConfig :=
  LEVEL_CONFIGS.find? (fun c => c.id = lvl)

/-- generateLevel's guarded lookup (line 101): find ... || LEVEL_CONFIGS[0],
falling back to the catalog's first entry. -/
def configOrDefault (lvl : Nat) : LevelConfig :=
  match findConfig lvl with
  | some c => c
  | none => LEVEL_CONFIGS.get ⟨0, by decide⟩

/-- A transition scheduled with setTimeout but not yet fired: either the
SUCCESS transition (line 173) or the narration of step idx (line 177). -/
inductive Pending where
  | idle
  | success
  | step (idx : Nat)
deriving DecidableEq, Repr

/-- The engine-visible React state of App plus the scheduled-transition slot
and a ghost counter of narrated steps. -/
structure Session where
  level : Nat
  status : GameStatus
  playerPos : Pose
  targetX : ℝ
  targetZ : ℝ
  fullPath : List Direction
  currentStep : Nat
  commandsForCurrentStep : List Direction
  movesMadeInStep : Nat
  isReplaying : Bool
  isPreloadingLevel : Bool
  pending : Pending
  narrated : Nat

/-- The initial React state (src/App.tsx lines 7-18): level 1, status START,
pose at the origin, target at (0, -GRID_SIZE), empty path. -/
noncomputable def initialSession : Session where
  level := 1
  status := .START
  playerPos := ⟨0, 0, 0⟩
  targetX := 0
  targetZ := -GRID_SIZE
  fullPath := []
  currentStep := 0
  commandsForCurrentStep := []
  movesMadeInStep := 0
  isReplaying := false
  isPreloadingLevel := true
  pending := .idle
  narrated := 0

/-- generateLevel (src/App.tsx lines 97-128) run to completion: draws the
path, simulates it, rounds the final simulated position to the nearest grid
multiple and offsets by 2.5, and resets the per-attempt fields.  The audio
preload finishes inside this call, so the resulting state has
isPreloadingLevel = false.  Fields the source does not touch
(commandsForCurrentStep, isReplaying) are carried over. -/
noncomputable def generateLevel (s : Session) (lvl : Nat) (rng : Nat → Fin 4) :
    Session :=
  let config := configOrDefault lvl
  let path := generatePath config rng
  let sim := simulatePath path
  let finalX := (round (sim.simX / GRID_SIZE) : ℝ) * GRID_SIZE
  let finalZ := (round (sim.simZ / GRID_SIZE) : ℝ) * GRID_SIZE
  { s with
      level := lvl
      status := .START
      fullPath := path
      targetX := finalX + 2.5
      targetZ := finalZ + 2.5
      playerPos := ⟨0, 0, 0⟩
      currentStep := 0
      movesMadeInStep := 0
      isPreloadingLevel := false
      pending := .idle
      narrated := 0 }

/-- startStep (src/App.tsx lines 132-150) run through the end of its
narration: slices the current step's commands out of the path, resets
movesMadeInStep, and leaves the session in MOVING (the source passes through
LISTENING while the sequence plays and lands in MOVING in the finally block).
The ghost counter narrated counts these narrations.  The config lookup uses a
non-null assertion in the source; none models the TypeError when it misses. -/
def startStep (s : Session) (stepIdx : Nat) : Option Session :=
  if s.isPreloadingLevel then some s
  else
    match findConfig s.level with
    | none => none
    | some config =>
        let startIndex := stepIdx * config.commandCountPerStep
        let stepCommands := (s.fullPath.drop startIndex).take config.commandCountPerStep
        some { s with
                commandsForCurrentStep := stepCommands
                movesMadeInStep := 0
                status := .MOVING
                pending := .idle
                narrated := s.narrated + 1 }

/-- executeMove (src/App.tsx lines 152-183), synchronous part only: the
guard on MOVING, the comparison of the input against
commandsForCurrentStep[movesMadeInStep] (an out-of-range JavaScript index
reads undefined, modelled as none), the pose update and counter increment on
a match, and the scheduling, via the pending slot, of either the SUCCESS
transition or the next step's narration when the step completes.  A mismatch
only sets status to FAIL.  The config lookup uses a non-null assertion;
none models the TypeError when it misses. -/
noncomputable def executeMove (s : Session) (inputDir : Direction) :
    Option Session :=
  if s.status ≠ GameStatus.MOVING then some s
  else
    let expectedMove := s.commandsForCurrentStep[s.movesMadeInStep]?
    if some inputDir = expectedMove then
      let pose := applyMove s.playerPos inputDir
      let nextMovesCount := s.movesMadeInStep + 1
      if nextMovesCount = s.commandsForCurrentStep.length then
        match findConfig s.level with
        | none => none
        | some config =>
            if s.currentStep + 1 = config.totalSteps then
              some { s with
                      playerPos := pose
                      movesMadeInStep := nextMovesCount
                      pending := .success }
            else
              some { s with
                      playerPos := pose
                      movesMadeInStep := nextMovesCount
                      currentStep := s.currentStep + 1
                      pending := .step (s.currentStep + 1) }
      else
        some { s with playerPos := pose, movesMadeInStep := nextMovesCount }
    else
      some { s with status := .FAIL }

/-- Firing the scheduled transition, if any: the setTimeout callback of
line 173 sets SUCCESS unconditionally; the one of line 177 runs startStep. -/
def tick (s : Session) : Option Session :=
  match s.pending with
  | .idle => some s
  | .success => some { s with status := .SUCCESS, pending := .idle }
  | .step idx => startStep { s with pending := .idle } idx

/-- Delivering one input and then letting the scheduled transition (if any)
fire before the next input arrives: the in-order happy-path timeline. -/
noncomputable def feedInput (s : Session) (inputDir : Direction) :
    Option Session :=
  match executeMove s inputDir with
  | none => none
  | some s2 => tick s2

/-- Feeding a list of inputs in order, each followed by the scheduled
transition. -/
noncomputable def feedAll : Session → List Direction → Option Session
  | s, [] => some s
  | s, d :: ds =>
      match feedInput s d with
      | none => none
      | some s2 => feedAll s2 ds

/-- replayStepAudio (src/App.tsx lines 197-202): the request is dropped when
a replay is in flight or the status is not MOVING; otherwise the replay
starts (the returned Bool says whether playback started). -/
def replayStepAudio (s : Session) : Session × Bool :=
  if s.isReplaying = true ∨ s.status ≠ GameStatus.MOVING then (s, false)
  else ({ s with isReplaying := true }, true)

/-- nextLevel (src/App.tsx line 204): advance and wrap after the last
catalog level. -/
def nextLevel (level : Nat) : Nat :=
  if level < 3 then level + 1 else 1

/-- The initial level (useState(1), src/App.tsx line 7). -/
def initialLevel : Nat := 1

/-- Levels the App can ever hold: the initial one, closed under nextLevel
(retry and all other transitions keep the level). -/
inductive ReachableLevel : Nat → Prop where
  | base : ReachableLevel initialLevel
  | advance (l : Nat) : ReachableLevel l → ReachableLevel (nextLevel l)

/-- The engine-visible transitions inside one attempt: an input delivery, a
scheduled-transition firing, the START button (startStep 0 is the only call
site, but any index is covered), a replay request, and a replay finishing
(line 201). Regenerating the level starts a new attempt and is not a step of
the same attempt. -/
inductive SessionStep : Session → Session → Prop where
  | input {s s2 : Session} (d : Direction) :
      executeMove s d = some s2 → SessionStep s s2
  | timer {s s2 : Session} : tick s = some s2 → SessionStep s s2
  | press {s s2 : Session} (idx : Nat) :
      startStep s idx = some s2 → SessionStep s s2
  | replay (s : Session) : SessionStep s (replayStepAudio s).1
  | replayDone (s : Session) : SessionStep s { s with isReplaying := false }

/-- Outcome of one audio playback attempt, as observed by
playAudioWithFallback: the onended event, the safety timeout (line 49), the
onerror event, or a rejected play() promise. -/
inductive AudioOutcome where
  | ended
  | timedOut
  | errored
  | rejected
deriving DecidableEq, Repr

/-- Flipping one direction's cached availability to false
(audioAvailability.current[direction] = false). -/
def setUnavailable (avail : Direction → Bool) (d : Direction) :
    Direction → Bool :=
  fun d2 => if d2 = d then false else avail d2

/-- playAudioWithFallback (src/App.tsx lines 39-70): with the availability
cache and the playback outcome made explicit, returns whether speech
synthesis was used for this cue and the cache afterwards.  If the cached
availability is false at call time the audio element is never created and
speech is used directly; otherwise the outcome decides: onended and the
safety timeout resolve without speech, while onerror and a rejected play()
flip the direction's availability to false and fall back to speech. -/
def playAudioWithFallback (avail : Direction → Bool) (d : Direction)
    (outcome : AudioOutcome) : Bool × (Direction → Bool) :=
  if avail d = false then (true, avail)
  else
    match outcome with
    | .ended => (false, avail)
    | .timedOut => (false, avail)
    | .errored => (true, setUnavailable avail d)
    | .rejected => (true, setUnavailable avail d)

/-- MovementModel contract as stated in the design (section 4.4), written
from the spec's words for comparison with the source's applyMove: STRAIGHT
translates by (-sin, -cos) of the rotation converted from degrees to
radians, scaled by the grid size; LEFT and RIGHT add and subtract the turn
angle with the position unchanged. -/
noncomputable def movementModelSpec (p : Pose) (d : Direction) : Pose :=
  match d with
  | .STRAIGHT =>
      ⟨p.x - Real.sin (p.rotation * Real.pi / 180) * GRID_SIZE,
       p.z - Real.cos (p.rotation * Real.pi / 180) * GRID_SIZE,
       p.rotation⟩
  | .LEFT => ⟨p.x, p.z, p.rotation + TURN_ANGLE⟩
  | .RIGHT => ⟨p.x, p.z, p.rotation - TURN_ANGLE⟩

/-- A concrete session in status START, used to witness claim C3. -/
noncomputable def witnessStart : Session where
  level := 1
  status := .START
  playerPos := ⟨0, 0, 0⟩
  targetX := 0
  targetZ := 0
  fullPath := []
  currentStep := 0
  commandsForCurrentStep := []
  movesMadeInStep := 0
  isReplaying := false
  isPreloadingLevel := false
  pending := .idle
  narrated := 0

/-- A concrete session in the pacing window (all commands of the current
step already accepted), used to witness claim C4. -/
noncomputable def witnessWindow : Session where
  level := 1
  status := .MOVING
  playerPos := ⟨0, 0, 0⟩
  targetX := 0
  targetZ := 0
  fullPath := [.STRAIGHT]
  currentStep := 0
  commandsForCurrentStep := [.STRAIGHT]
  movesMadeInStep := 1
  isReplaying := false
  isPreloadingLevel := false
  pending := .success
  narrated := 1

/-- Claim C3: delivering an input in any status other than MOVING (START,
LISTENING, SUCCESS or FAIL) leaves the whole session state unchanged and
raises no error; equivalently, MOVING is the only status in which input is
accepted. -/
theorem claim_C3 :
    (∀ (s : Session) (d : Direction),
        s.status = .START ∨ s.status = .LISTENING ∨
          s.status = .SUCCESS ∨ s.status = .FAIL →
        executeMove s d = some s) ∧
    (∀ (s : Session) (d : Direction), s.status ≠ .MOVING →
        executeMove s d = some s) := by
  constructor
  · intro s d h
    have hne : s.status ≠ GameStatus.MOVING := by
      rcases h with h | h | h | h <;> simp [h]
    simp [executeMove, hne]
  · intro s d hne
    simp [executeMove, hne]

/-- Claim C3 witness: an input in status START changes nothing. -/
theorem claim_C3_witness :
    ((witnessStart.status = .START ∨ witnessStart.status = .LISTENING ∨
        witnessStart.status = .SUCCESS ∨ witnessStart.status = .FAIL) ∧
      executeMove witnessStart .STRAIGHT = some witnessStart) :=
  ⟨Or.inl rfl, claim_C3.1 witnessStart .STRAIGHT (Or.inl rfl)⟩

/-- Claim C4: while MOVING with movesMadeInStep equal to the step's command
count (the pacing window after the last accepted command of a step), the
expected command read is out of range, and any input sets status to FAIL
without mutating the pose or anything else. -/
theorem claim_C4 (s : Session) (d : Direction)
    (hmov : s.status = .MOVING)
    (hfull : s.movesMadeInStep = s.commandsForCurrentStep.length) :
    s.commandsForCurrentStep[s.movesMadeInStep]? = none ∧
    executeMove s d = some { s with status := .FAIL } := by
  have hnone : s.commandsForCurrentStep[s.movesMadeInStep]? = none := by
    apply List.getElem?_eq_none
    exact Nat.le_of_eq hfull.symm
  refine ⟨hnone, ?_⟩
  simp [executeMove, hmov, hnone]

/-- Claim C4 witness: in the pacing window after a fully entered one-command
step, a STRAIGHT input fails. -/
theorem claim_C4_witness :
    (witnessWindow.status = .MOVING ∧
      witnessWindow.movesMadeInStep =
        witnessWindow.commandsForCurrentStep.length) ∧
    (witnessWindow.commandsForCurrentStep[witnessWindow.movesMadeInStep]? =
        none ∧
      executeMove witnessWindow .STRAIGHT =
        some { witnessWindow with status := .FAIL }) :=
  ⟨⟨rfl, rfl⟩, claim_C4 witnessWindow .STRAIGHT rfl rfl⟩

/-- A concrete MOVING session expecting STRAIGHT as its next command, used
to witness claim C2. -/
noncomputable def witnessMismatch : Session where
  level := 1
  status := .MOVING
  playerPos := ⟨0, 0, 0⟩
  targetX := 0
  targetZ := 0
  fullPath := [.STRAIGHT]
  currentStep := 0
  commandsForCurrentStep := [.STRAIGHT]
  movesMadeInStep := 0
  isReplaying := false
  isPreloadingLevel := false
  pending := .idle
  narrated := 1

/-- startStep never touches the player pose. -/
theorem startStep_playerPos {s s2 : Session} {idx : Nat}
    (h : startStep s idx = some s2) : s2.playerPos = s.playerPos := by
  unfold startStep at h
  split at h
  · injection h with h; rw [← h]
  · split at h
    · cases h
    · injection h with h; rw [← h]

/-- Firing a scheduled transition never touches the player pose. -/
theorem tick_playerPos {s s2 : Session} (h : tick s = some s2) :
    s2.playerPos = s.playerPos := by
  unfold tick at h
  split at h
  · injection h with h; rw [← h]
  · injection h with h; rw [← h]
  · exact (startStep_playerPos h).trans rfl

/-- Claim C2: while MOVING with commands still expected, a mismatching input
sets status to FAIL and changes nothing else, and no transition of the same
attempt mutates the pose from a FAIL state. -/
theorem claim_C2 :
    (∀ (s : Session) (d : Direction), s.status = .MOVING →
        ∀ (hlt : s.movesMadeInStep < s.commandsForCurrentStep.length),
        d ≠ s.commandsForCurrentStep.get ⟨s.movesMadeInStep, hlt⟩ →
        executeMove s d = some { s with status := .FAIL }) ∧
    (∀ s s2 : Session, s.status = .FAIL → SessionStep s s2 →
        s2.playerPos = s.playerPos) := by
  constructor
  · intro s d hmov hlt hne
    have hsome : s.commandsForCurrentStep[s.movesMadeInStep]? =
        some (s.commandsForCurrentStep.get ⟨s.movesMadeInStep, hlt⟩) :=
      List.getElem?_eq_getElem hlt
    have hne2 : d ≠ s.commandsForCurrentStep[s.movesMadeInStep] := by
      simpa [List.get_eq_getElem] using hne
    simp [executeMove, hmov, hsome, hne2]
  · intro s s2 hfail hstep
    cases hstep with
    | input d h =>
        have hne : s.status ≠ GameStatus.MOVING := by simp [hfail]
        simp [executeMove, hne] at h
        rw [← h]
    | timer h => exact tick_playerPos h
    | press idx h => exact startStep_playerPos h
    | replay =>
        unfold replayStepAudio
        by_cases hc : s.isReplaying = true ∨ s.status ≠ GameStatus.MOVING
        · rw [if_pos hc]
        · rw [if_neg hc]
    | replayDone => rfl

/-- Claim C2 witness: a LEFT input against an expected STRAIGHT fails
without touching anything else, and a FAIL state's pose survives a
transition of the attempt. -/
theorem claim_C2_witness :
    (witnessMismatch.status = .MOVING ∧
      witnessMismatch.movesMadeInStep <
        witnessMismatch.commandsForCurrentStep.length ∧
      executeMove witnessMismatch .LEFT =
        some { witnessMismatch with status := .FAIL }) ∧
    (({ witnessMismatch with status := .FAIL } : Session).status = .FAIL ∧
      ({ witnessMismatch with status := .FAIL, isReplaying := false } :
          Session).playerPos =
        ({ witnessMismatch with status := .FAIL } : Session).playerPos) :=
  ⟨⟨rfl, by decide,
      claim_C2.1 witnessMismatch .LEFT rfl (by decide) (by decide)⟩,
    ⟨rfl,
      claim_C2.2 { witnessMismatch with status := .FAIL }
        { witnessMismatch with status := .FAIL, isReplaying := false } rfl
        (SessionStep.replayDone { witnessMismatch with status := .FAIL })⟩⟩

/-- Claim C5: path generation is total and returns, for every config and
random source, a path of length totalSteps * commandCountPerStep whose every
element is STRAIGHT, LEFT or RIGHT; an unrecognized level id falls back to
the catalog's first config. -/
theorem claim_C5 :
    (∀ (config : LevelConfig) (rng : Nat → Fin 4),
        (generatePath config rng).length =
          config.totalSteps * config.commandCountPerStep) ∧
    (∀ (config : LevelConfig) (rng : Nat → Fin 4) (d : Direction),
        d ∈ generatePath config rng →
        d = .STRAIGHT ∨ d = .LEFT ∨ d = .RIGHT) ∧
    (∀ lvl : Nat, findConfig lvl = none →
        configOrDefault lvl = LEVEL_CONFIGS.get ⟨0, by decide⟩) := by
  refine ⟨?_, ?_, ?_⟩
  · intro config rng
    simp [generatePath]
  · intro config rng d _
    cases d <;> simp
  · intro lvl h
    simp [configOrDefault, h]

/-- Claim C5 witness: level 1's config gives an 8-command path, and the
unknown level id 99 falls back to the first catalog entry. -/
theorem claim_C5_witness :
    (generatePath ⟨1, 1, 8⟩ (fun _ => 0)).length = 8 ∧
    (findConfig 99 = none ∧
      configOrDefault 99 = LEVEL_CONFIGS.get ⟨0, by decide⟩) :=
  ⟨claim_C5.1 ⟨1, 1, 8⟩ (fun _ => 0), by decide,
    claim_C5.2.2 99 (by decide)⟩

/-- Claim C7: the movement model is pure and total and matches the spec's
formulas: STRAIGHT translates by minus sin and minus cos of the rotation
converted to radians, scaled by the grid size, with rotation unchanged; LEFT
adds 90 degrees and RIGHT subtracts 90 degrees with the position
unchanged. -/
theorem claim_C7 :
    (∀ (p : Pose) (d : Direction), applyMove p d = movementModelSpec p d) ∧
    (∀ p : Pose,
        applyMove p .STRAIGHT =
          ⟨p.x - Real.sin (p.rotation * Real.pi / 180) * GRID_SIZE,
           p.z - Real.cos (p.rotation * Real.pi / 180) * GRID_SIZE,
           p.rotation⟩) ∧
    (∀ p : Pose, applyMove p .LEFT = ⟨p.x, p.z, p.rotation + 90⟩) ∧
    (∀ p : Pose, applyMove p .RIGHT = ⟨p.x, p.z, p.rotation - 90⟩) := by
  refine ⟨?_, ?_, ?_, ?_⟩
  · intro p d
    cases d <;> rfl
  · intro p; rfl
  · intro p; rfl
  · intro p; rfl

/-- Claim C6: the goal coordinate produced by level generation is the final
simulated position rounded to the nearest multiple of the grid size and
offset by half a grid cell in both axes, so both goal coordinates are
congruent to half the grid size modulo the grid size. -/
theorem claim_C6 :
    ∀ (prior : Session) (lvl : Nat) (rng : Nat → Fin 4),
      (generateLevel prior lvl rng).targetX =
          (round ((simulatePath (generateLevel prior lvl rng).fullPath).simX /
              GRID_SIZE) : ℝ) * GRID_SIZE + GRID_SIZE / 2 ∧
      (generateLevel prior lvl rng).targetZ =
          (round ((simulatePath (generateLevel prior lvl rng).fullPath).simZ /
              GRID_SIZE) : ℝ) * GRID_SIZE + GRID_SIZE / 2 ∧
      (∃ n : ℤ, (generateLevel prior lvl rng).targetX =
          (n : ℝ) * GRID_SIZE + GRID_SIZE / 2) ∧
      (∃ m : ℤ, (generateLevel prior lvl rng).targetZ =
          (m : ℝ) * GRID_SIZE + GRID_SIZE / 2) := by
  intro prior lvl rng
  have hfull : (generateLevel prior lvl rng).fullPath =
      generatePath (configOrDefault lvl) rng := rfl
  have hx : (generateLevel prior lvl rng).targetX =
      (round ((simulatePath (generateLevel prior lvl rng).fullPath).simX /
          GRID_SIZE) : ℝ) * GRID_SIZE + GRID_SIZE / 2 := by
    rw [hfull]
    show (round ((simulatePath
          (generatePath (configOrDefault lvl) rng)).simX / GRID_SIZE) : ℝ) *
        GRID_SIZE + 2.5 = _
    norm_num [GRID_SIZE]
  have hz : (generateLevel prior lvl rng).targetZ =
      (round ((simulatePath (generateLevel prior lvl rng).fullPath).simZ /
          GRID_SIZE) : ℝ) * GRID_SIZE + GRID_SIZE / 2 := by
    rw [hfull]
    show (round ((simulatePath
          (generatePath (configOrDefault lvl) rng)).simZ / GRID_SIZE) : ℝ) *
        GRID_SIZE + 2.5 = _
    norm_num [GRID_SIZE]
  exact ⟨hx, hz, ⟨_, hx⟩, ⟨_, hz⟩⟩

/-- Claim C8: the narration player uses speech for a cue exactly when the
cached availability of the cue's direction is false at call time or the
audio attempt errors or is rejected; an error or rejection flips that
direction's cached availability to false, and once false it stays false for
every later cue, so all subsequent cues of that direction use speech. -/
theorem claim_C8 :
    ∀ (avail : Direction → Bool) (d : Direction) (outcome : AudioOutcome),
      ((playAudioWithFallback avail d outcome).1 = true ↔
        avail d = false ∨ outcome = .errored ∨ outcome = .rejected) ∧
      (outcome = .errored ∨ outcome = .rejected →
        (playAudioWithFallback avail d outcome).2 d = false) ∧
      (∀ (d2 : Direction) (outcome2 : AudioOutcome), avail d = false →
        (playAudioWithFallback avail d2 outcome2).2 d = false) := by
  intro avail d outcome
  refine ⟨?_, ?_, ?_⟩
  · by_cases h : avail d = false
    · simp [playAudioWithFallback, h]
    · cases outcome <;> simp [playAudioWithFallback, h, setUnavailable]
  · intro hout
    by_cases h : avail d = false
    · simp [playAudioWithFallback, h]
    · rcases hout with hout | hout <;>
        simp [playAudioWithFallback, h, hout, setUnavailable]
  · intro d2 outcome2 h
    by_cases h2 : avail d2 = false
    · simp [playAudioWithFallback, h2, h]
    · cases outcome2 <;>
        simp [playAudioWithFallback, h2, h, setUnavailable]

/-- Claim C8 witness: with STRAIGHT's audio available, an errored playback
uses speech, downgrades the cache, and a later STRAIGHT cue keeps using
speech. -/
theorem claim_C8_witness :
    (AudioOutcome.errored = AudioOutcome.errored ∨
        AudioOutcome.errored = AudioOutcome.rejected) ∧
    (playAudioWithFallback (fun _ => true) .STRAIGHT .errored).2
        .STRAIGHT = false ∧
    ((playAudioWithFallback (fun _ => true) .STRAIGHT .errored).1 = true ↔
      (fun _ => true : Direction → Bool) .STRAIGHT = false ∨
        AudioOutcome.errored = AudioOutcome.errored ∨
        AudioOutcome.errored = AudioOutcome.rejected) :=
  ⟨Or.inl rfl,
    (claim_C8 (fun _ => true) .STRAIGHT .errored).2.1 (Or.inl rfl),
    (claim_C8 (fun _ => true) .STRAIGHT .errored).1⟩

/-- A concrete MOVING session with a replay already in flight, used to
witness claim C9. -/
noncomputable def witnessReplaying : Session where
  level := 1
  status := .MOVING
  playerPos := ⟨0, 0, 0⟩
  targetX := 0
  targetZ := 0
  fullPath := [.STRAIGHT]
  currentStep := 0
  commandsForCurrentStep := [.STRAIGHT]
  movesMadeInStep := 0
  isReplaying := true
  isPreloadingLevel := false
  pending := .idle
  narrated := 1

/-- Claim C9: a replay request is a no-op, starting no playback and changing
nothing, whenever a replay is in flight or status is not MOVING; a request
that does start playback requires no replay in flight, so two replays are
never in flight at once. -/
theorem claim_C9 :
    (∀ s : Session, s.isReplaying = true ∨ s.status ≠ .MOVING →
        replayStepAudio s = (s, false)) ∧
    (∀ s : Session, (replayStepAudio s).2 = true →
        s.isReplaying = false ∧ s.status = .MOVING ∧
          (replayStepAudio s).1.isReplaying = true) := by
  constructor
  · intro s h
    simp only [replayStepAudio, if_pos h]
  · intro s h
    by_cases hc : s.isReplaying = true ∨ s.status ≠ GameStatus.MOVING
    · rw [(by simp only [replayStepAudio, if_pos hc] : replayStepAudio s =
        (s, false))] at h
      cases h
    · push_neg at hc
      refine ⟨by simpa using hc.1, hc.2, ?_⟩
      simp only [replayStepAudio, if_neg (by simpa using hc : ¬(s.isReplaying =
        true ∨ s.status ≠ GameStatus.MOVING))]

/-- Claim C9 witness: a request while a replay is in flight changes nothing
and starts nothing. -/
theorem claim_C9_witness :
    (witnessReplaying.isReplaying = true ∨
        witnessReplaying.status ≠ .MOVING) ∧
    replayStepAudio witnessReplaying = (witnessReplaying, false) :=
  ⟨Or.inl rfl, claim_C9.1 witnessReplaying (Or.inl rfl)⟩

/-- A concrete session at the initial level, used to witness claim C10. -/
noncomputable def witnessLevelOne : Session where
  level := 1
  status := .MOVING
  playerPos := ⟨0, 0, 0⟩
  targetX := 0
  targetZ := 0
  fullPath := [.STRAIGHT]
  currentStep := 0
  commandsForCurrentStep := [.STRAIGHT]
  movesMadeInStep := 0
  isReplaying := false
  isPreloadingLevel := false
  pending := .idle
  narrated := 1

/-- Claim C10: every reachable level is a catalog id (1, 2 or 3), the level
advance maps 1 to 2, 2 to 3 and 3 back to 1, and on any session whose level
is reachable the unguarded catalog lookups in startStep and executeMove
always find a config, so neither operation can fail. -/
theorem claim_C10 :
    (∀ l : Nat, ReachableLevel l → l = 1 ∨ l = 2 ∨ l = 3) ∧
    (nextLevel 1 = 2 ∧ nextLevel 2 = 3 ∧ nextLevel 3 = 1) ∧
    (∀ (s : Session) (idx : Nat), ReachableLevel s.level →
        ∃ s2, startStep s idx = some s2) ∧
    (∀ (s : Session) (d : Direction), ReachableLevel s.level →
        ∃ s2, executeMove s d = some s2) := by
  have hmem : ∀ l : Nat, ReachableLevel l → l = 1 ∨ l = 2 ∨ l = 3 := by
    intro l h
    induction h with
    | base => exact Or.inl rfl
    | advance l2 _ ih =>
        rcases ih with h2 | h2 | h2 <;> subst h2 <;> simp [nextLevel]
  have hfind : ∀ l : Nat, ReachableLevel l → ∃ c, findConfig l = some c := by
    intro l h
    rcases hmem l h with h2 | h2 | h2
    · subst h2; exact ⟨⟨1, 1, 8⟩, by decide⟩
    · subst h2; exact ⟨⟨2, 2, 10⟩, by decide⟩
    · subst h2; exact ⟨⟨3, 3, 12⟩, by decide⟩
  refine ⟨hmem, ⟨by decide, by decide, by decide⟩, ?_, ?_⟩
  · intro s idx h
    obtain ⟨c, hc⟩ := hfind s.level h
    unfold startStep
    split
    · exact ⟨s, rfl⟩
    · rw [hc]
      exact ⟨_, rfl⟩
  · intro s d h
    obtain ⟨c, hc⟩ := hfind s.level h
    rw [← Option.isSome_iff_exists]
    simp only [executeMove, hc]
    repeat' split
    all_goals rfl

/-- Claim C10 witness: level 1 is reachable, is a catalog id, and both
engine operations succeed on a session at level 1. -/
theorem claim_C10_witness :
    ReachableLevel witnessLevelOne.level ∧
    (witnessLevelOne.level = 1 ∨ witnessLevelOne.level = 2 ∨
        witnessLevelOne.level = 3) ∧
    (∃ s2, startStep witnessLevelOne 0 = some s2) ∧
    (∃ s2, executeMove witnessLevelOne .STRAIGHT = some s2) :=
  ⟨ReachableLevel.base,
    claim_C10.1 witnessLevelOne.level ReachableLevel.base,
    claim_C10.2.2.1 witnessLevelOne 0 ReachableLevel.base,
    claim_C10.2.2.2 witnessLevelOne .STRAIGHT ReachableLevel.base⟩

/-- Every catalog config has at least one command per step and one step. -/
theorem config_pos {lvl : Nat} {cfg : LevelConfig}
    (h : findConfig lvl = some cfg) :
    0 < cfg.commandCountPerStep ∧ 0 < cfg.totalSteps := by
  have hm : cfg ∈ LEVEL_CONFIGS := List.mem_of_find?_eq_some h
  simp [LEVEL_CONFIGS] at hm
  rcases hm with rfl | rfl | rfl <;> exact ⟨by decide, by decide⟩

/-- executeMove on a matching input that does not finish the step: pose
updated, counter incremented, nothing else changes. -/
theorem executeMove_accept_mid {s : Session} {d : Direction}
    (hstatus : s.status = .MOVING)
    (hexp : s.commandsForCurrentStep[s.movesMadeInStep]? = some d)
    (hne : s.movesMadeInStep + 1 ≠ s.commandsForCurrentStep.length) :
    executeMove s d = some { s with
      playerPos := applyMove s.playerPos d
      movesMadeInStep := s.movesMadeInStep + 1 } := by
  simp [executeMove, hstatus, hexp, hne]

/-- executeMove on a matching input that finishes the final step: pose
updated, counter incremented, and the SUCCESS transition scheduled. -/
theorem executeMove_accept_final {s : Session} {d : Direction}
    {config : LevelConfig}
    (hstatus : s.status = .MOVING)
    (hexp : s.commandsForCurrentStep[s.movesMadeInStep]? = some d)
    (heq : s.movesMadeInStep + 1 = s.commandsForCurrentStep.length)
    (hcfg : findConfig s.level = some config)
    (hlast : s.currentStep + 1 = config.totalSteps) :
    executeMove s d = some { s with
      playerPos := applyMove s.playerPos d
      movesMadeInStep := s.movesMadeInStep + 1
      pending := .success } := by
  simp [executeMove, hstatus, hexp, heq, hcfg, hlast]

/-- executeMove on a matching input that finishes a non-final step: pose
updated, counter incremented, step index advanced and the next narration
scheduled. -/
theorem executeMove_accept_advance {s : Session} {d : Direction}
    {config : LevelConfig}
    (hstatus : s.status = .MOVING)
    (hexp : s.commandsForCurrentStep[s.movesMadeInStep]? = some d)
    (heq : s.movesMadeInStep + 1 = s.commandsForCurrentStep.length)
    (hcfg : findConfig s.level = some config)
    (hnotlast : s.currentStep + 1 ≠ config.totalSteps) :
    executeMove s d = some { s with
      playerPos := applyMove s.playerPos d
      movesMadeInStep := s.movesMadeInStep + 1
      currentStep := s.currentStep + 1
      pending := .step (s.currentStep + 1) } := by
  simp [executeMove, hstatus, hexp, heq, hcfg, hnotlast]

/-- Firing with nothing scheduled changes nothing. -/
theorem tick_idle {s : Session} (h : s.pending = .idle) : tick s = some s := by
  unfold tick
  rw [h]

/-- Firing a scheduled SUCCESS sets the status. -/
theorem tick_success {s : Session} (h : s.pending = .success) :
    tick s = some { s with status := .SUCCESS, pending := .idle } := by
  unfold tick
  rw [h]

/-- Firing a scheduled narration runs startStep. -/
theorem tick_step {s : Session} {idx : Nat} (h : s.pending = .step idx) :
    tick s = startStep { s with pending := .idle } idx := by
  unfold tick
  rw [h]

/-- startStep run on a session with a recognized level and preloading
finished. -/
theorem startStep_run (stepIdx : Nat) {s : Session} {config : LevelConfig}
    (hpre : s.isPreloadingLevel = false)
    (hcfg : findConfig s.level = some config) :
    startStep s stepIdx = some { s with
      commandsForCurrentStep :=
        (s.fullPath.drop (stepIdx * config.commandCountPerStep)).take
          config.commandCountPerStep
      movesMadeInStep := 0
      status := .MOVING
      pending := .idle
      narrated := s.narrated + 1 } := by
  simp [startStep, hpre, hcfg]

/-- Unfolding one feedInput through a known executeMove result. -/
theorem feedInput_some {s s2 : Session} {d : Direction}
    (h : executeMove s d = some s2) : feedInput s d = tick s2 := by
  unfold feedInput
  rw [h]

/-- The invariant maintained while feeding the generated path back to the
engine: after i accepted inputs the session is MOVING, on step i divided by
the commands-per-step count, with the matching slice narrated, the counter
at i modulo the count, nothing pending, and one narration per entered
step. -/
@[reducible]
def StepInv (cfg : LevelConfig) (path : List Direction) (lvl : Nat)
    (i : Nat) (s : Session) : Prop :=
  s.level = lvl ∧
  s.status = .MOVING ∧
  s.fullPath = path ∧
  s.isPreloadingLevel = false ∧
  s.pending = .idle ∧
  s.currentStep = i / cfg.commandCountPerStep ∧
  s.movesMadeInStep = i % cfg.commandCountPerStep ∧
  s.commandsForCurrentStep =
    (path.drop (i / cfg.commandCountPerStep * cfg.commandCountPerStep)).take
      cfg.commandCountPerStep ∧
  s.narrated = i / cfg.commandCountPerStep + 1

/-- One input taken from the generated path, followed by the scheduled
transition, preserves the invariant when commands remain, and ends the
attempt in SUCCESS exactly on the last command of the last step. -/
theorem feedInput_inv {cfg : LevelConfig} {path : List Direction} {lvl : Nat}
    (hfind : findConfig lvl = some cfg)
    (hlen : path.length = cfg.totalSteps * cfg.commandCountPerStep)
    (hcps : 0 < cfg.commandCountPerStep)
    {i : Nat} {s : Session} (hinv : StepInv cfg path lvl i s)
    (hi : i < path.length) :
    ∃ s2, feedInput s path[i] = some s2 ∧
      (i + 1 < path.length → StepInv cfg path lvl (i + 1) s2) ∧
      (i + 1 = path.length →
        s2.status = .SUCCESS ∧ s2.narrated = cfg.totalSteps ∧
        s2.currentStep + 1 = cfg.totalSteps ∧
        s2.movesMadeInStep = cfg.commandCountPerStep) := by
  obtain ⟨hlvl, hstatus, hpath, hpre, hpend, hstep, hmoves, hcmds, hnarr⟩ := hinv
  have e1 : cfg.commandCountPerStep * (i / cfg.commandCountPerStep) +
      i % cfg.commandCountPerStep = i :=
    Nat.div_add_mod i cfg.commandCountPerStep
  have hjlt : i % cfg.commandCountPerStep < cfg.commandCountPerStep :=
    Nat.mod_lt _ hcps
  have hkT : i / cfg.commandCountPerStep < cfg.totalSteps :=
    (Nat.div_lt_iff_lt_mul hcps).mpr (hlen ▸ hi)
  have e4 : cfg.commandCountPerStep * (i / cfg.commandCountPerStep + 1) =
      cfg.commandCountPerStep * (i / cfg.commandCountPerStep) +
        cfg.commandCountPerStep := Nat.mul_succ _ _
  have e2 : path.length = cfg.commandCountPerStep * cfg.totalSteps := by
    rw [hlen]; exact Nat.mul_comm _ _
  have e7 : cfg.commandCountPerStep * (i / cfg.commandCountPerStep + 1) ≤
      cfg.commandCountPerStep * cfg.totalSteps :=
    Nat.mul_le_mul_left _ (Nat.succ_le_of_lt hkT)
  have e8 : i / cfg.commandCountPerStep * cfg.commandCountPerStep =
      cfg.commandCountPerStep * (i / cfg.commandCountPerStep) :=
    Nat.mul_comm _ _
  have hlencmds : s.commandsForCurrentStep.length = cfg.commandCountPerStep := by
    rw [hcmds, List.length_take, List.length_drop, e2]
    exact Nat.min_eq_left (by omega)
  have hexp : s.commandsForCurrentStep[s.movesMadeInStep]? = some path[i] := by
    rw [hcmds, hmoves, List.getElem?_take_of_lt hjlt, List.getElem?_drop]
    rw [show i / cfg.commandCountPerStep * cfg.commandCountPerStep +
        i % cfg.commandCountPerStep = i from by omega]
    exact List.getElem?_eq_getElem hi
  by_cases hlaststep :
      i % cfg.commandCountPerStep + 1 = cfg.commandCountPerStep
  · -- the current step completes with this input
    have hnext : s.movesMadeInStep + 1 = s.commandsForCurrentStep.length := by
      rw [hmoves, hlencmds]; exact hlaststep
    have hcfgs : findConfig s.level = some cfg := by rw [hlvl]; exact hfind
    by_cases hfin : i / cfg.commandCountPerStep + 1 = cfg.totalSteps
    · -- final step of the level: the SUCCESS transition fires
      have hplen : i + 1 = path.length := by
        have e3 : cfg.commandCountPerStep * cfg.totalSteps =
            cfg.commandCountPerStep * (i / cfg.commandCountPerStep + 1) := by
          rw [hfin]
        omega
      have hmv := executeMove_accept_final hstatus hexp hnext hcfgs
        (by rw [hstep]; exact hfin)
      have h1 : tick { s with
          playerPos := applyMove s.playerPos path[i]
          movesMadeInStep := s.movesMadeInStep + 1
          pending := Pending.success } = some { s with
          playerPos := applyMove s.playerPos path[i]
          movesMadeInStep := s.movesMadeInStep + 1
          status := GameStatus.SUCCESS
          pending := Pending.idle } := tick_success rfl
      refine ⟨{ s with
          playerPos := applyMove s.playerPos path[i]
          movesMadeInStep := s.movesMadeInStep + 1
          status := GameStatus.SUCCESS
          pending := Pending.idle }, ?_, ?_, ?_⟩
      · rw [feedInput_some hmv]; exact h1
      · intro h; exact absurd h (by omega)
      · intro _
        refine ⟨rfl, ?_, ?_, ?_⟩
        · show s.narrated = cfg.totalSteps
          omega
        · show s.currentStep + 1 = cfg.totalSteps
          omega
        · show s.movesMadeInStep + 1 = cfg.commandCountPerStep
          omega
    · -- non-final step: the next narration fires and the invariant advances
      have e6 : i / cfg.commandCountPerStep + 1 < cfg.totalSteps := by omega
      have hi1 : i + 1 =
          cfg.commandCountPerStep * (i / cfg.commandCountPerStep + 1) := by
        omega
      have hdiv1 : (i + 1) / cfg.commandCountPerStep =
          i / cfg.commandCountPerStep + 1 := by
        rw [hi1]; exact Nat.mul_div_cancel_left _ hcps
      have hmod1 : (i + 1) % cfg.commandCountPerStep = 0 := by
        rw [hi1]; exact Nat.mul_mod_right _ _
      have hlt2 : i + 1 < path.length := by
        have e10 : cfg.commandCountPerStep *
            (i / cfg.commandCountPerStep + 1) <
            cfg.commandCountPerStep * cfg.totalSteps :=
          mul_lt_mul_of_pos_left e6 hcps
        omega
      have hmv := executeMove_accept_advance hstatus hexp hnext hcfgs
        (by rw [hstep]; exact hfin)
      have h1 : tick { s with
          playerPos := applyMove s.playerPos path[i]
          movesMadeInStep := s.movesMadeInStep + 1
          currentStep := s.currentStep + 1
          pending := Pending.step (s.currentStep + 1) } =
          startStep { s with
            playerPos := applyMove s.playerPos path[i]
            movesMadeInStep := s.movesMadeInStep + 1
            currentStep := s.currentStep + 1
            pending := Pending.idle } (s.currentStep + 1) := tick_step rfl
      have hpreA : ({ s with
          playerPos := applyMove s.playerPos path[i]
          movesMadeInStep := s.movesMadeInStep + 1
          currentStep := s.currentStep + 1
          pending := Pending.idle } : Session).isPreloadingLevel = false := hpre
      have hcfgA : findConfig ({ s with
          playerPos := applyMove s.playerPos path[i]
          movesMadeInStep := s.movesMadeInStep + 1
          currentStep := s.currentStep + 1
          pending := Pending.idle } : Session).level = some cfg := hcfgs
      have h2 := startStep_run (s.currentStep + 1) hpreA hcfgA
      refine ⟨{ s with
          playerPos := applyMove s.playerPos path[i]
          currentStep := s.currentStep + 1
          commandsForCurrentStep :=
            (s.fullPath.drop
              ((s.currentStep + 1) * cfg.commandCountPerStep)).take
              cfg.commandCountPerStep
          movesMadeInStep := 0
          status := GameStatus.MOVING
          pending := Pending.idle
          narrated := s.narrated + 1 }, ?_, ?_, ?_⟩
      · rw [feedInput_some hmv, h1, h2]
      · intro _
        refine ⟨hlvl, rfl, hpath, hpre, rfl, ?_, ?_, ?_, ?_⟩
        · show s.currentStep + 1 = (i + 1) / cfg.commandCountPerStep
          omega
        · exact hmod1.symm
        · show (s.fullPath.drop
              ((s.currentStep + 1) * cfg.commandCountPerStep)).take
              cfg.commandCountPerStep =
            (path.drop ((i + 1) / cfg.commandCountPerStep *
              cfg.commandCountPerStep)).take cfg.commandCountPerStep
          rw [hpath, hstep, hdiv1]
        · show s.narrated + 1 = (i + 1) / cfg.commandCountPerStep + 1
          omega
      · intro h; exact absurd h (by omega)
  · -- mid-step: the counter advances and everything else stays
    have hj2 : i % cfg.commandCountPerStep + 1 < cfg.commandCountPerStep := by
      omega
    have hne : s.movesMadeInStep + 1 ≠ s.commandsForCurrentStep.length := by
      rw [hmoves, hlencmds]; exact hlaststep
    have e5 : i + 1 =
        cfg.commandCountPerStep * (i / cfg.commandCountPerStep) +
          (i % cfg.commandCountPerStep + 1) := by omega
    have hdiv1 : (i + 1) / cfg.commandCountPerStep =
        i / cfg.commandCountPerStep := by
      rw [e5, Nat.mul_add_div hcps]
      have h0 : (i % cfg.commandCountPerStep + 1) / cfg.commandCountPerStep = 0 :=
        Nat.div_eq_of_lt hj2
      omega
    have hmod1 : (i + 1) % cfg.commandCountPerStep =
        i % cfg.commandCountPerStep + 1 := by
      rw [e5, Nat.mul_add_mod]
      exact Nat.mod_eq_of_lt hj2
    have hlt2 : i + 1 < path.length := by omega
    have hmv := executeMove_accept_mid hstatus hexp hne
    have h1 : tick { s with
        playerPos := applyMove s.playerPos path[i]
        movesMadeInStep := s.movesMadeInStep + 1 } = some { s with
        playerPos := applyMove s.playerPos path[i]
        movesMadeInStep := s.movesMadeInStep + 1 } := tick_idle hpend
    refine ⟨{ s with
        playerPos := applyMove s.playerPos path[i]
        movesMadeInStep := s.movesMadeInStep + 1 }, ?_, ?_, ?_⟩
    · rw [feedInput_some hmv]; exact h1
    · intro _
      refine ⟨hlvl, hstatus, hpath, hpre, hpend, ?_, ?_, ?_, ?_⟩
      · show s.currentStep = (i + 1) / cfg.commandCountPerStep
        omega
      · show s.movesMadeInStep + 1 = (i + 1) % cfg.commandCountPerStep
        omega
      · show s.commandsForCurrentStep =
          (path.drop ((i + 1) / cfg.commandCountPerStep *
            cfg.commandCountPerStep)).take cfg.commandCountPerStep
        rw [hdiv1]; exact hcmds
      · show s.narrated = (i + 1) / cfg.commandCountPerStep + 1
        omega
    · intro h; exact absurd h (by omega)

/-- Feeding a concatenation is feeding the parts in order. -/
theorem feedAll_append (s : Session) (l1 l2 : List Direction) :
    feedAll s (l1 ++ l2) =
      (feedAll s l1).bind (fun s2 => feedAll s2 l2) := by
  induction l1 generalizing s with
  | nil => simp [feedAll]
  | cons d ds ih =>
      cases h : feedInput s d with
      | none => simp [feedAll, h]
      | some s2 => simp [feedAll, h, ih]

/-- From any invariant state, feeding the rest of the generated path ends
the attempt in SUCCESS on the final step, with every step narrated. -/
theorem feedAll_success {cfg : LevelConfig} {path : List Direction}
    {lvl : Nat} (hfind : findConfig lvl = some cfg)
    (hlen : path.length = cfg.totalSteps * cfg.commandCountPerStep)
    (hcps : 0 < cfg.commandCountPerStep) :
    ∀ (n i : Nat) (s : Session), path.length = i + n → 0 < n →
      StepInv cfg path lvl i s →
      ∃ s2, feedAll s (path.drop i) = some s2 ∧ s2.status = .SUCCESS ∧
        s2.narrated = cfg.totalSteps ∧ s2.currentStep + 1 = cfg.totalSteps ∧
        s2.movesMadeInStep = cfg.commandCountPerStep := by
  intro n
  induction n with
  | zero => intro i s hlen2 h0 _; exact absurd h0 (by omega)
  | succ m ih =>
      intro i s hlen2 _ hinv
      have hi : i < path.length := by omega
      obtain ⟨s2, hfeed, hmid, hfin⟩ := feedInput_inv hfind hlen hcps hinv hi
      have hdropeq : path.drop i = path[i] :: path.drop (i + 1) :=
        List.drop_eq_getElem_cons hi
      by_cases hm : m = 0
      · subst hm
        have hilen : i + 1 = path.length := by omega
        obtain ⟨h1, h2, h3, h4⟩ := hfin hilen
        refine ⟨s2, ?_, h1, h2, h3, h4⟩
        have hnil : path.drop (i + 1) = [] :=
          List.drop_eq_nil_of_le (by omega)
        rw [hdropeq, hnil]
        simp [feedAll, hfeed]
      · have hstep2 : StepInv cfg path lvl (i + 1) s2 := hmid (by omega)
        obtain ⟨s3, hfeed3, hrest⟩ :=
          ih (i + 1) s2 (by omega) (by omega) hstep2
        refine ⟨s3, ?_, hrest⟩
        rw [hdropeq]
        simp [feedAll, hfeed, hfeed3]

/-- From the start of the attempt, feeding any proper prefix of the
generated path leaves the session in the invariant (in particular still
MOVING). -/
theorem feedAll_moving {cfg : LevelConfig} {path : List Direction}
    {lvl : Nat} (hfind : findConfig lvl = some cfg)
    (hlen : path.length = cfg.totalSteps * cfg.commandCountPerStep)
    (hcps : 0 < cfg.commandCountPerStep) :
    ∀ (i : Nat) (s0 : Session), StepInv cfg path lvl 0 s0 →
      i < path.length →
      ∃ s2, feedAll s0 (path.take i) = some s2 ∧
        StepInv cfg path lvl i s2 := by
  intro i
  induction i with
  | zero => intro s0 h _; exact ⟨s0, by simp [feedAll], h⟩
  | succ m ih =>
      intro s0 h0 hlt
      obtain ⟨s2, hfeed, hinv2⟩ := ih s0 h0 (by omega)
      obtain ⟨s3, hfeed3, hmid, _⟩ :=
        feedInput_inv hfind hlen hcps hinv2 (show m < path.length by omega)
      refine ⟨s3, ?_, hmid hlt⟩
      rw [List.take_succ, feedAll_append, hfeed]
      have htl : path[m]?.toList = [path[m]] := by
        rw [List.getElem?_eq_getElem (show m < path.length by omega)]
        rfl
      rw [htl]
      simp [feedAll, hfeed3]

/-- Claim C1: for every recognized level config and every random source,
pressing START and then feeding the engine its own generated path, in
order, always succeeds: every proper prefix leaves the engine MOVING, and
the full path ends the attempt in SUCCESS, reached exactly on the last
command of step totalSteps - 1, after exactly totalSteps narrated steps. -/
theorem claim_C1 (lvl : Nat) (cfg : LevelConfig) (rng : Nat → Fin 4)
    (hfind : findConfig lvl = some cfg) :
    ∃ s1, startStep (generateLevel initialSession lvl rng) 0 = some s1 ∧
      (∃ sF, feedAll s1 (generateLevel initialSession lvl rng).fullPath =
          some sF ∧
        sF.status = .SUCCESS ∧ sF.narrated = cfg.totalSteps ∧
        sF.currentStep + 1 = cfg.totalSteps ∧
        sF.movesMadeInStep = cfg.commandCountPerStep) ∧
      (∀ i, i < (generateLevel initialSession lvl rng).fullPath.length →
        ∃ sMid,
          feedAll s1 ((generateLevel initialSession lvl rng).fullPath.take i) =
            some sMid ∧ sMid.status = .MOVING) := by
  obtain ⟨hcps, hT⟩ := config_pos hfind
  have hconf : configOrDefault lvl = cfg := by simp [configOrDefault, hfind]
  have hlen : (generateLevel initialSession lvl rng).fullPath.length =
      cfg.totalSteps * cfg.commandCountPerStep := by
    show (generatePath (configOrDefault lvl) rng).length = _
    rw [hconf]
    simp [generatePath]
  have hpre0 : (generateLevel initialSession lvl rng).isPreloadingLevel =
      false := rfl
  have hcfg0 : findConfig (generateLevel initialSession lvl rng).level =
      some cfg := hfind
  have hstart := startStep_run 0 hpre0 hcfg0
  have hinv0 : StepInv cfg (generateLevel initialSession lvl rng).fullPath lvl 0
      { generateLevel initialSession lvl rng with
        commandsForCurrentStep :=
          ((generateLevel initialSession lvl rng).fullPath.drop
            (0 * cfg.commandCountPerStep)).take cfg.commandCountPerStep
        movesMadeInStep := 0
        status := .MOVING
        pending := .idle
        narrated := (generateLevel initialSession lvl rng).narrated + 1 } := by
    refine ⟨rfl, rfl, rfl, rfl, rfl, ?_, ?_, ?_, ?_⟩
    · show (0 : Nat) = 0 / cfg.commandCountPerStep
      rw [Nat.zero_div]
    · show (0 : Nat) = 0 % cfg.commandCountPerStep
      rw [Nat.zero_mod]
    · show ((generateLevel initialSession lvl rng).fullPath.drop
          (0 * cfg.commandCountPerStep)).take cfg.commandCountPerStep =
        ((generateLevel initialSession lvl rng).fullPath.drop
          (0 / cfg.commandCountPerStep * cfg.commandCountPerStep)).take
          cfg.commandCountPerStep
      rw [Nat.zero_div, Nat.zero_mul]
    · show (0 : Nat) + 1 = 0 / cfg.commandCountPerStep + 1
      rw [Nat.zero_div]
  refine ⟨_, hstart, ?_, ?_⟩
  · have hpos : 0 < (generateLevel initialSession lvl rng).fullPath.length := by
      rw [hlen]; exact Nat.mul_pos hT hcps
    obtain ⟨sF, hF, hprops⟩ := feedAll_success hfind hlen hcps
      ((generateLevel initialSession lvl rng).fullPath.length) 0 _
      (by omega) hpos hinv0
    rw [List.drop_zero] at hF
    exact ⟨sF, hF, hprops⟩
  · intro i hi
    obtain ⟨sMid, hM, hinvM⟩ := feedAll_moving hfind hlen hcps i _ hinv0 hi
    exact ⟨sMid, hM, hinvM.2.1⟩

/-- Claim C1 witness: at level 1 (one command per step, eight steps) with
the random source that always draws STRAIGHT, feeding the generated path
ends the attempt in SUCCESS after eight narrated steps. -/
theorem claim_C1_witness :
    findConfig 1 = some ⟨1, 1, 8⟩ ∧
    (∃ s1, startStep (generateLevel initialSession 1 (fun _ => 0)) 0 =
        some s1 ∧
      (∃ sF, feedAll s1 (generateLevel initialSession 1 (fun _ => 0)).fullPath =
          some sF ∧
        sF.status = .SUCCESS ∧
        sF.narrated = (⟨1, 1, 8⟩ : LevelConfig).totalSteps ∧
        sF.currentStep + 1 = (⟨1, 1, 8⟩ : LevelConfig).totalSteps ∧
        sF.movesMadeInStep = (⟨1, 1, 8⟩ : LevelConfig).commandCountPerStep) ∧
      (∀ i, i < (generateLevel initialSession 1 (fun _ => 0)).fullPath.length →
        ∃ sMid,
          feedAll s1
            ((generateLevel initialSession 1 (fun _ => 0)).fullPath.take i) =
            some sMid ∧ sMid.status = .MOVING)) :=
  ⟨by decide, claim_C1 1 ⟨1, 1, 8⟩ (fun _ => 0) (by decide)⟩

end DirectionDetectives
